import Mathlib

/-!
Verification of the scheduling core of the social-media automation backend
(`backend/services/scheduler.py`, class `IntelligentScheduler`).

Time model: the scheduler works with timezone-aware datetimes in one fixed
user timezone (default UTC) and only ever inspects `weekday()`, `.hour`,
`.minute`, `.date()` and adds whole hours/days.  We embed a local datetime
as the number of minutes elapsed since a reference Monday 00:00, so
`weekday`, `hour` and `minute` are arithmetic projections and
`timedelta(hours=1)` is `+ 60`.  Engagement scores (Python floats that only
ever meet the literals 0.8, 0.2 and 0.75 and comparisons) are embedded as
rationals.  Methods of the class become functions taking the relevant state
(`optimal_times`, `scheduled_posts`, the sleep-window bounds) explicitly and
returning the new state.
-/

namespace Scheduler

/-- Days elapsed since the reference Monday (Python `dt.date()` as a day count). -/
def dateOf (t : Nat) : Nat := t / 1440

/-- Python `dt.weekday()`: 0 = Monday .. 6 = Sunday. -/
def weekday (t : Nat) : Nat := (t / 1440) % 7

/-- Python `dt.hour`. -/
def hourOf (t : Nat) : Nat := (t % 1440) / 60

/-- Python `dt.minute`. -/
def minuteOf (t : Nat) : Nat := t % 60

/-- `OptimalTimeSlot` dataclass: a recurring weekly candidate posting time. -/
structure OptimalTimeSlot where
  hour : Nat
  minute : Nat
  day_of_week : Nat
  engagement_score : ℚ
  platform : String
deriving DecidableEq

/-- The `status` field of a `ScheduleEntry`. -/
inductive Status where
  | pending
  | posted
  | failed
deriving DecidableEq

/-- `ScheduleEntry` dataclass: a one-time commitment to post. -/
structure ScheduleEntry where
  id : String
  content_id : String
  platform : String
  scheduled_time : Nat
  status : Status
  created_at : Nat
deriving DecidableEq

/-- `_load_default_optimal_times`: the seeded catalog. -/
def load_default_optimal_times : List OptimalTimeSlot :=
  [ ⟨9, 0, 1, 0.85, "reddit"⟩,
    ⟨14, 0, 2, 0.82, "reddit"⟩,
    ⟨11, 0, 6, 0.78, "reddit"⟩,
    ⟨20, 0, 4, 0.88, "discord"⟩,
    ⟨19, 30, 5, 0.85, "discord"⟩,
    ⟨15, 0, 6, 0.80, "discord"⟩,
    ⟨8, 30, 1, 0.83, "mastodon"⟩,
    ⟨18, 0, 3, 0.81, "mastodon"⟩,
    ⟨12, 0, 5, 0.79, "mastodon"⟩ ]

/-- The `days_ahead` computation of `_get_next_occurrence`:
`days_ahead = slot.day_of_week - from_time.weekday()`, and
`if days_ahead <= 0: days_ahead += 7`. -/
def daysAhead (slot : OptimalTimeSlot) (from_time : Nat) : Nat :=
  if slot.day_of_week ≤ weekday from_time then
    slot.day_of_week + 7 - weekday from_time
  else
    slot.day_of_week - weekday from_time

/-- `_get_next_occurrence`: the occurrence lands on
`from_time.date() + days_ahead` at `slot.hour:slot.minute`. -/
def get_next_occurrence (slot : OptimalTimeSlot) (from_time : Nat) : Nat :=
  (dateOf from_time + daysAhead slot from_time) * 1440 + slot.hour * 60 + slot.minute

/-- `_is_sleep_time`: `self.sleep_start <= local_hour < self.sleep_end`. -/
def is_sleep_time (sleep_start sleep_end : Nat) (t : Nat) : Bool :=
  decide (sleep_start ≤ hourOf t ∧ hourOf t < sleep_end)

/-- The `while` loop of `_get_next_non_sleep_time`, with explicit fuel:
while the current time is in the sleep window, add one hour.  The source
loop is unbounded; for the scheduler's window `[0, 6)` it runs at most 6
iterations, so fuel 24 (a full day of hour steps) is proved sufficient
below, which is exactly the spec's termination bound. -/
def next_non_sleep_aux (sleep_start sleep_end : Nat) : Nat → Nat → Nat
  | 0, t => t
  | fuel + 1, t =>
    if is_sleep_time sleep_start sleep_end t then
      next_non_sleep_aux sleep_start sleep_end fuel (t + 60)
    else t

/-- `_get_next_non_sleep_time`. -/
def get_next_non_sleep_time (sleep_start sleep_end t : Nat) : Nat :=
  next_non_sleep_aux sleep_start sleep_end 24 t

/-- Descending-by-score comparator used for Python's stable
`schedule.sort(key=score, reverse=True)`. -/
def scoreGE (a b : Nat × ℚ) : Bool := decide (b.2 ≤ a.2)

/-- `_find_next_optimal_slot`. -/
def find_next_optimal_slot (sleep_start sleep_end : Nat)
    (optimal_times : List OptimalTimeSlot) (platform : String) (now : Nat) : Nat :=
  let platform_slots := optimal_times.filter (fun s => s.platform == platform)
  if platform_slots.isEmpty then
    get_next_non_sleep_time sleep_start sleep_end now
  else
    let next_slots :=
      (platform_slots.map (fun s => (get_next_occurrence s now, s.engagement_score))).filter
        (fun p => !(is_sleep_time sleep_start sleep_end p.1))
    match (next_slots.mergeSort scoreGE).head? with
    | some p => p.1
    | none => get_next_non_sleep_time sleep_start sleep_end now

/-- One element of the ranked list built by `optimize_schedule`
(the derived string fields `day_name` and `local_time` are omitted:
they are presentation-only renderings of `time`). -/
structure ScheduleItem where
  platform : String
  time : Nat
  engagement_score : ℚ
deriving DecidableEq

/-- Descending-by-score comparator for the ranked schedule list. -/
def itemGE (a b : ScheduleItem) : Bool := decide (b.engagement_score ≤ a.engagement_score)

/-- The loop of `optimize_schedule` before sorting: every slot's next
occurrence, kept only when outside the sleep window. -/
def surviving_items (sleep_start sleep_end : Nat)
    (optimal_times : List OptimalTimeSlot) (now : Nat) : List ScheduleItem :=
  optimal_times.filterMap (fun slot =>
    let occ := get_next_occurrence slot now
    if is_sleep_time sleep_start sleep_end occ then none
    else some ⟨slot.platform, occ, slot.engagement_score⟩)

/-- `optimize_schedule`: the ranked list plus `next_post_time`
(`schedule[0]['time'] if schedule else None`). -/
def optimize_schedule (sleep_start sleep_end : Nat)
    (optimal_times : List OptimalTimeSlot) (now : Nat) :
    List ScheduleItem × Option Nat :=
  let sorted := (surviving_items sleep_start sleep_end optimal_times now).mergeSort itemGE
  (sorted, sorted.head?.map ScheduleItem.time)

/-- `schedule_post`: pick the time (preferred, or next optimal slot), build
the entry with status `pending`, append it to `scheduled_posts`, return it. -/
def schedule_post (sleep_start sleep_end : Nat) (optimal_times : List OptimalTimeSlot)
    (content_id platform : String) (preferred_time : Option Nat) (now created : Nat)
    (scheduled_posts : List ScheduleEntry) : ScheduleEntry × List ScheduleEntry :=
  let scheduled_time :=
    match preferred_time with
    | some t => t
    | none => find_next_optimal_slot sleep_start sleep_end optimal_times platform now
  let entry : ScheduleEntry :=
    ⟨platform ++ "_" ++ content_id ++ "_" ++ toString scheduled_time,
     content_id, platform, scheduled_time, Status.pending, created⟩
  (entry, scheduled_posts ++ [entry])

/-- Ascending-by-time comparator for `get_upcoming_posts`. -/
def timeLE (a b : ScheduleEntry) : Bool := decide (a.scheduled_time ≤ b.scheduled_time)

/-- The filter-and-sort of `get_upcoming_posts` before truncation. -/
def upcoming_sorted (now : Nat) (scheduled_posts : List ScheduleEntry) :
    List ScheduleEntry :=
  (scheduled_posts.filter
    (fun p => decide (now < p.scheduled_time) && (p.status == Status.pending))).mergeSort timeLE

/-- `get_upcoming_posts`: pending entries strictly after `now`, sorted
ascending by time, first 10. -/
def get_upcoming_posts (now : Nat) (scheduled_posts : List ScheduleEntry) :
    List ScheduleEntry :=
  (upcoming_sorted now scheduled_posts).take 10

/-- The per-entry action of `process_scheduled_posts`.  The handoff to the
posting collaborator (the `try` body) is abstracted by `publish_ok`: the
source sets `status = 'posted'` when the body runs to completion and
`status = 'failed'` when it raises. -/
def stepPost (sleep_start sleep_end now : Nat) (publish_ok : ScheduleEntry → Bool)
    (p : ScheduleEntry) : ScheduleEntry :=
  if p.status == Status.pending && decide (p.scheduled_time ≤ now) &&
      !(is_sleep_time sleep_start sleep_end now) then
    if publish_ok p then
      ⟨p.id, p.content_id, p.platform, p.scheduled_time, Status.posted, p.created_at⟩
    else
      ⟨p.id, p.content_id, p.platform, p.scheduled_time, Status.failed, p.created_at⟩
  else p

/-- `process_scheduled_posts`: the due-post sweep over every entry. -/
def process_scheduled_posts (sleep_start sleep_end now : Nat)
    (publish_ok : ScheduleEntry → Bool) (scheduled_posts : List ScheduleEntry) :
    List ScheduleEntry :=
  scheduled_posts.map (stepPost sleep_start sleep_end now publish_ok)

/-- The match condition of `update_engagement_data`:
same platform, same weekday, `abs(slot.hour - hour) <= 1`. -/
def slotMatches (platform : String) (day hr : Nat) (s : OptimalTimeSlot) : Bool :=
  s.platform == platform && s.day_of_week == day &&
    decide (s.hour ≤ hr + 1 ∧ hr ≤ s.hour + 1)

/-- The search-and-blend of `update_engagement_data`: find the first
matching slot, replace its score by `old * 0.8 + observed * 0.2`;
`none` when no slot matches. -/
def blendFirstMatch (platform : String) (day hr : Nat) (score : ℚ) :
    List OptimalTimeSlot → Option (List OptimalTimeSlot)
  | [] => none
  | s :: rest =>
    if slotMatches platform day hr s then
      some (⟨s.hour, s.minute, s.day_of_week,
             s.engagement_score * 0.8 + score * 0.2, s.platform⟩ :: rest)
    else
      (blendFirstMatch platform day hr score rest).map (fun l => s :: l)

/-- `update_engagement_data`: blend the first matching slot, else append a
new slot when the observed score exceeds 0.75, else leave the catalog alone. -/
def update_engagement_data (optimal_times : List OptimalTimeSlot) (platform : String)
    (post_time : Nat) (engagement_score : ℚ) : List OptimalTimeSlot :=
  let day := weekday post_time
  let hr := hourOf post_time
  match blendFirstMatch platform day hr engagement_score optimal_times with
  | some updated => updated
  | none =>
    if engagement_score > 0.75 then
      optimal_times ++ [⟨hr, 0, day, engagement_score, platform⟩]
    else
      optimal_times

end Scheduler

namespace Scheduler

/-! ## C1: next occurrence -/

/-- C1 (counterexample): for a Monday 9:00 slot queried on Monday 00:00, the
code returns next Monday 9:00 (minute 10620), even though today's 9:00
(minute 540) matches the slot's weekday/hour/minute, is strictly after now,
and is strictly earlier — so the computed occurrence is not the earliest
matching occurrence at-or-after now, and "today but later" never happens. -/
theorem C1_counterexample :
    get_next_occurrence ⟨9, 0, 0, 0.85, "reddit"⟩ 0 = 10620 ∧
    weekday 540 = 0 ∧ hourOf 540 = 9 ∧ minuteOf 540 = 0 ∧
    (0 : Nat) < 540 ∧ (540 : Nat) < 10620 := by
  decide

/-- C1 (amended): the next occurrence is strictly in the future and its
weekday/hour/minute match the slot, but it always lands 1 to 7 days after
the query date: whenever the slot's weekday is at-or-before today's weekday
— including when it equals it and the slot's time later today has not yet
passed — the occurrence rolls to next week, so "today but later" is never
returned. -/
theorem C1_next_occurrence_amended (slot : OptimalTimeSlot) (now : Nat)
    (hh : slot.hour < 24) (hm : slot.minute < 60) (hd : slot.day_of_week < 7) :
    now < get_next_occurrence slot now ∧
    weekday (get_next_occurrence slot now) = slot.day_of_week ∧
    hourOf (get_next_occurrence slot now) = slot.hour ∧
    minuteOf (get_next_occurrence slot now) = slot.minute ∧
    dateOf (get_next_occurrence slot now) = dateOf now + daysAhead slot now ∧
    1 ≤ daysAhead slot now ∧ daysAhead slot now ≤ 7 ∧
    (slot.day_of_week ≤ weekday now →
      dateOf (get_next_occurrence slot now) =
        dateOf now + (slot.day_of_week + 7 - weekday now)) := by
  unfold get_next_occurrence daysAhead dateOf weekday hourOf minuteOf
  split <;> omega

/-- Witness for `C1_next_occurrence_amended` at a Tuesday 9:00 slot queried
on Monday 00:00. -/
theorem C1_next_occurrence_amended_witness :
    0 < get_next_occurrence ⟨9, 0, 1, 0.85, "reddit"⟩ 0 ∧
    weekday (get_next_occurrence ⟨9, 0, 1, 0.85, "reddit"⟩ 0) = 1 := by
  have h := C1_next_occurrence_amended ⟨9, 0, 1, 0.85, "reddit"⟩ 0
    (by decide) (by decide) (by decide)
  exact ⟨h.1, h.2.1⟩

/-! ## C2: sleep-window membership -/

/-- C2 (counterexample): with `sleep_start = 23 > sleep_end = 6` the claim
says hour 23 is inside the wrapped window, but the code's comparison
`sleep_start ≤ h < sleep_end` is false for every hour — at local hour 23
the predicate returns `false`. -/
theorem C2_counterexample :
    hourOf 1380 = 23 ∧ 23 ≤ hourOf 1380 ∧ is_sleep_time 23 6 1380 = false := by
  decide

/-- C2 (amended): membership holds exactly when the local hour lies in the
half-open interval `[sleep_start, sleep_end)`; if `sleep_start = sleep_end`
the window is empty, and if `sleep_start > sleep_end` the window is likewise
empty — the comparison never wraps past midnight. -/
theorem C2_is_sleep_time_amended (sleep_start sleep_end t : Nat) :
    (is_sleep_time sleep_start sleep_end t = true ↔
      (sleep_start ≤ hourOf t ∧ hourOf t < sleep_end)) ∧
    (sleep_start = sleep_end → is_sleep_time sleep_start sleep_end t = false) ∧
    (sleep_end ≤ sleep_start → is_sleep_time sleep_start sleep_end t = false) := by
  unfold is_sleep_time
  refine ⟨by simp, fun h => ?_, fun h => ?_⟩ <;> simp <;> omega

/-- Witness for `C2_is_sleep_time_amended`: a zero-length window contains
nothing, and a reversed window contains nothing. -/
theorem C2_is_sleep_time_amended_witness :
    is_sleep_time 5 5 300 = false ∧ is_sleep_time 23 4 300 = false :=
  ⟨(C2_is_sleep_time_amended 5 5 300).2.1 rfl,
   (C2_is_sleep_time_amended 23 4 300).2.2 (by decide)⟩

end Scheduler

namespace Scheduler

/-! ## C3, C4: engagement updates -/

/-- Finding the first match blends exactly that slot and leaves both the
earlier (non-matching) slots and the later slots untouched. -/
theorem blendFirstMatch_append (platform : String) (day hr : Nat) (score : ℚ)
    (pre : List OptimalTimeSlot) (s : OptimalTimeSlot) (rest : List OptimalTimeSlot)
    (hpre : ∀ x ∈ pre, slotMatches platform day hr x = false)
    (hs : slotMatches platform day hr s = true) :
    blendFirstMatch platform day hr score (pre ++ s :: rest) =
      some (pre ++ ⟨s.hour, s.minute, s.day_of_week,
        s.engagement_score * 0.8 + score * 0.2, s.platform⟩ :: rest) := by
  induction pre with
  | nil => simp [blendFirstMatch, hs]
  | cons a l ih =>
    have ha := hpre a (by simp)
    simp [blendFirstMatch, ha, ih (fun x hx => hpre x (by simp [hx]))]

/-- When no slot matches, the search returns `none`. -/
theorem blendFirstMatch_eq_none (platform : String) (day hr : Nat) (score : ℚ)
    (l : List OptimalTimeSlot) (h : ∀ x ∈ l, slotMatches platform day hr x = false) :
    blendFirstMatch platform day hr score l = none := by
  induction l with
  | nil => rfl
  | cons a t ih =>
    simp [blendFirstMatch, h a (by simp), ih (fun x hx => h x (by simp [hx]))]

/-- C3: when the catalog splits as `pre ++ s :: rest` with no
(platform, weekday, hour ± 1) match in `pre` and `s` matching, the update
replaces only `s`'s score by `old * 0.8 + observed * 0.2`; concretely a
score of 0.80 with observation 0.60 becomes 0.76, and updating again with
0.60 gives 0.728. -/
theorem C3_engagement_blend :
    (∀ (optimal_times : List OptimalTimeSlot) (platform : String) (post_time : Nat)
        (score : ℚ) (pre : List OptimalTimeSlot) (s : OptimalTimeSlot)
        (rest : List OptimalTimeSlot),
      optimal_times = pre ++ s :: rest →
      (∀ x ∈ pre, slotMatches platform (weekday post_time) (hourOf post_time) x = false) →
      slotMatches platform (weekday post_time) (hourOf post_time) s = true →
      update_engagement_data optimal_times platform post_time score =
        pre ++ ⟨s.hour, s.minute, s.day_of_week,
          s.engagement_score * 0.8 + score * 0.2, s.platform⟩ :: rest) ∧
    update_engagement_data [⟨9, 0, 1, 0.80, "reddit"⟩] "reddit" 1980 0.60 =
      [⟨9, 0, 1, 0.76, "reddit"⟩] ∧
    update_engagement_data
        (update_engagement_data [⟨9, 0, 1, 0.80, "reddit"⟩] "reddit" 1980 0.60)
        "reddit" 1980 0.60 =
      [⟨9, 0, 1, 0.728, "reddit"⟩] := by
  refine ⟨?_,
    by norm_num [update_engagement_data, blendFirstMatch, slotMatches, weekday, hourOf],
    by norm_num [update_engagement_data, blendFirstMatch, slotMatches, weekday, hourOf]⟩
  intro ot p t sc pre s rest hot hpre hs
  subst hot
  have hb := blendFirstMatch_append p (weekday t) (hourOf t) sc pre s rest hpre hs
  simp only [update_engagement_data, hb]

/-- Witness for `C3_engagement_blend` applying the first-match rule to a
one-slot catalog (Tuesday 9:00, score 0.80, observation 0.60 at Tuesday
9:00, i.e. minute 1980). -/
theorem C3_engagement_blend_witness :
    update_engagement_data [⟨9, 0, 1, (0.80 : ℚ), "reddit"⟩] "reddit" 1980 0.60 =
      [⟨9, 0, 1, (0.80 : ℚ) * 0.8 + (0.60 : ℚ) * 0.2, "reddit"⟩] := by
  have h := C3_engagement_blend.1 [⟨9, 0, 1, 0.80, "reddit"⟩] "reddit" 1980 0.60
    [] ⟨9, 0, 1, 0.80, "reddit"⟩ [] rfl (by simp) (by decide)
  simpa using h

/-- C4: with no matching slot anywhere in the catalog, the update appends
one new slot (observed weekday, observed hour, minute 0, observed score)
exactly when the observed score strictly exceeds 0.75, and otherwise leaves
the catalog unchanged; concretely 0.76 creates a slot and 0.75 does not. -/
theorem C4_new_slot_threshold :
    (∀ (optimal_times : List OptimalTimeSlot) (platform : String) (post_time : Nat)
        (score : ℚ),
      (∀ x ∈ optimal_times,
        slotMatches platform (weekday post_time) (hourOf post_time) x = false) →
      update_engagement_data optimal_times platform post_time score =
        (if score > 0.75 then
          optimal_times ++ [⟨hourOf post_time, 0, weekday post_time, score, platform⟩]
        else optimal_times)) ∧
    update_engagement_data [] "reddit" 1980 0.76 = [⟨9, 0, 1, 0.76, "reddit"⟩] ∧
    update_engagement_data [] "reddit" 1980 0.75 = [] := by
  refine ⟨?_,
    by norm_num [update_engagement_data, blendFirstMatch, weekday, hourOf],
    by norm_num [update_engagement_data, blendFirstMatch]⟩
  intro ot p t sc h
  have hb := blendFirstMatch_eq_none p (weekday t) (hourOf t) sc ot h
  simp only [update_engagement_data, hb]

/-- Witness for `C4_new_slot_threshold` on the empty catalog with an
observation at Tuesday 9:00. -/
theorem C4_new_slot_threshold_witness :
    update_engagement_data [] "discord" 1980 0.9 =
      (if (0.9 : ℚ) > 0.75 then
        [⟨hourOf 1980, 0, weekday 1980, 0.9, "discord"⟩]
      else []) := by
  have h := C4_new_slot_threshold.1 [] "discord" 1980 0.9 (by simp)
  simpa using h

end Scheduler

namespace Scheduler

/-! ## C5: fallback when no platform slot survives -/

/-- With the scheduler's sleep window `[0, 6)`, the hour-stepping loop with
`fuel` iterations available exits on a non-sleep time, never moves backwards,
and moves forward at most one hour per remaining sleep hour. -/
theorem next_non_sleep_aux_spec (fuel : Nat) :
    ∀ t : Nat, 6 - hourOf t ≤ fuel →
      is_sleep_time 0 6 (next_non_sleep_aux 0 6 fuel t) = false ∧
      t ≤ next_non_sleep_aux 0 6 fuel t ∧
      next_non_sleep_aux 0 6 fuel t ≤ t + 60 * (6 - hourOf t) := by
  induction fuel with
  | zero =>
    intro t ht
    have hns : is_sleep_time 0 6 t = false := by
      unfold is_sleep_time hourOf at *
      simp
      omega
    refine ⟨?_, Nat.le_refl t, Nat.le_add_right t _⟩
    simpa [next_non_sleep_aux] using hns
  | succ n ih =>
    intro t ht
    by_cases hs : is_sleep_time 0 6 t = true
    · have hlt : hourOf t < 6 := by
        unfold is_sleep_time at hs
        simpa using hs
      have hstep : hourOf (t + 60) = hourOf t + 1 := by
        unfold hourOf at *
        omega
      have h2 := ih (t + 60) (by omega)
      have hrw : next_non_sleep_aux 0 6 (n + 1) t = next_non_sleep_aux 0 6 n (t + 60) := by
        simp only [next_non_sleep_aux, hs, if_true]
      rw [hrw]
      exact ⟨h2.1, Nat.le_trans (by omega) h2.2.1, by omega⟩
    · have hns : is_sleep_time 0 6 t = false := by
        revert hs
        cases is_sleep_time 0 6 t <;> simp
      have hrw : next_non_sleep_aux 0 6 (n + 1) t = t := by
        simp [next_non_sleep_aux, hns]
      rw [hrw]
      exact ⟨hns, Nat.le_refl t, Nat.le_add_right t _⟩

/-- `_get_next_non_sleep_time` with the default window: the result is
outside the sleep window, at-or-after the start time, and within 24 hours
of it (its 24 hour-steps of fuel are never exhausted, matching the spec's
"terminates within 24 iterations"). -/
theorem get_next_non_sleep_time_spec (t : Nat) :
    is_sleep_time 0 6 (get_next_non_sleep_time 0 6 t) = false ∧
    t ≤ get_next_non_sleep_time 0 6 t ∧
    get_next_non_sleep_time 0 6 t ≤ t + 1440 := by
  have h := next_non_sleep_aux_spec 24 t (by omega)
  exact ⟨h.1, h.2.1, by unfold get_next_non_sleep_time; omega⟩

/-- When every slot of the requested platform has a sleep-filtered next
occurrence — in particular when the platform has no slots at all —
`_find_next_optimal_slot` returns the hour-stepping fallback. -/
theorem find_slot_fallback (optimal_times : List OptimalTimeSlot) (platform : String) (now : Nat)
    (h : ∀ s ∈ optimal_times, s.platform = platform →
          is_sleep_time 0 6 (get_next_occurrence s now) = true) :
    find_next_optimal_slot 0 6 optimal_times platform now =
      get_next_non_sleep_time 0 6 now := by
  unfold find_next_optimal_slot
  by_cases hemp : (optimal_times.filter (fun s => s.platform == platform)).isEmpty
  · simp [hemp]
  · have hnil : ((optimal_times.filter (fun s => s.platform == platform)).map
        (fun s => (get_next_occurrence s now, s.engagement_score))).filter
        (fun p => !(is_sleep_time 0 6 p.1)) = [] := by
      rw [List.filter_eq_nil_iff]
      intro a ha
      rcases List.mem_map.mp ha with ⟨s, hsmem, rfl⟩
      rcases List.mem_filter.mp hsmem with ⟨hmem, hpf⟩
      have hp : s.platform = platform := by simpa using hpf
      simp [h s hmem hp]
    simp [hemp, hnil]

/-- C5: if the catalog has no slot for the platform, or every slot of the
platform has a sleep-filtered next occurrence, slot selection falls back to
walking forward from `now` one hour at a time; the fallback is a total
function (deterministic, no error), its 24 hour-steps of fuel suffice, and
it returns a time at-or-after `now`, within the next 24 hours and outside
the default sleep window `[0, 6)`. -/
theorem C5_no_slot_fallback (optimal_times : List OptimalTimeSlot)
    (platform : String) (now : Nat)
    (h : (∀ s ∈ optimal_times, s.platform ≠ platform) ∨
         (∀ s ∈ optimal_times, s.platform = platform →
            is_sleep_time 0 6 (get_next_occurrence s now) = true)) :
    find_next_optimal_slot 0 6 optimal_times platform now =
      get_next_non_sleep_time 0 6 now ∧
    is_sleep_time 0 6 (get_next_non_sleep_time 0 6 now) = false ∧
    now ≤ get_next_non_sleep_time 0 6 now ∧
    get_next_non_sleep_time 0 6 now ≤ now + 1440 := by
  have hall : ∀ s ∈ optimal_times, s.platform = platform →
      is_sleep_time 0 6 (get_next_occurrence s now) = true := by
    rcases h with h | h
    · intro s hs hp
      exact absurd hp (h s hs)
    · exact h
  exact ⟨find_slot_fallback optimal_times platform now hall,
    get_next_non_sleep_time_spec now⟩

/-- Witness for `C5_no_slot_fallback`: an empty catalog queried at Monday
00:00 falls back to Monday 06:00 (minute 360). -/
theorem C5_no_slot_fallback_witness :
    find_next_optimal_slot 0 6 [] "twitter" 0 = get_next_non_sleep_time 0 6 0 ∧
    is_sleep_time 0 6 (get_next_non_sleep_time 0 6 0) = false ∧
    0 ≤ get_next_non_sleep_time 0 6 0 ∧
    get_next_non_sleep_time 0 6 0 ≤ 0 + 1440 :=
  C5_no_slot_fallback [] "twitter" 0 (Or.inl (by simp))

end Scheduler

namespace Scheduler

/-! ## C6: ranked schedule output -/

/-- The descending-score comparator is transitive. -/
theorem itemGE_trans : ∀ a b c : ScheduleItem, itemGE a b → itemGE b c → itemGE a c := by
  intro a b c hab hbc
  simp only [itemGE, decide_eq_true_eq] at *
  exact le_trans hbc hab

/-- The descending-score comparator is total. -/
theorem itemGE_total : ∀ a b : ScheduleItem, itemGE a b || itemGE b a := by
  intro a b
  simp only [itemGE, Bool.or_eq_true, decide_eq_true_eq]
  exact le_total b.engagement_score a.engagement_score

/-- C6: the optimized-schedule list is sorted by engagement score
descending, is a permutation of the surviving occurrences, preserves the
original catalog order among equal scores (stability of the sort), and
`next_post_time` is the time of the head — a highest-scored surviving
occurrence; when every slot's occurrence is sleep-filtered the list is
empty and `next_post_time` is `none`, with no error. -/
theorem C6_ranking (sleep_start sleep_end : Nat)
    (optimal_times : List OptimalTimeSlot) (now : Nat) :
    (optimize_schedule sleep_start sleep_end optimal_times now).1.Pairwise
      (fun a b => b.engagement_score ≤ a.engagement_score) ∧
    (optimize_schedule sleep_start sleep_end optimal_times now).1.Perm
      (surviving_items sleep_start sleep_end optimal_times now) ∧
    (∀ a b : ScheduleItem, a.engagement_score = b.engagement_score →
      List.Sublist [a, b] (surviving_items sleep_start sleep_end optimal_times now) →
      List.Sublist [a, b] (optimize_schedule sleep_start sleep_end optimal_times now).1) ∧
    (∀ a : ScheduleItem,
      (optimize_schedule sleep_start sleep_end optimal_times now).1.head? = some a →
      (optimize_schedule sleep_start sleep_end optimal_times now).2 = some a.time ∧
      ∀ b ∈ (optimize_schedule sleep_start sleep_end optimal_times now).1,
        b.engagement_score ≤ a.engagement_score) ∧
    ((∀ s ∈ optimal_times,
        is_sleep_time sleep_start sleep_end (get_next_occurrence s now) = true) →
      (optimize_schedule sleep_start sleep_end optimal_times now).1 = [] ∧
      (optimize_schedule sleep_start sleep_end optimal_times now).2 = none) := by
  have hpair := List.sorted_mergeSort itemGE_trans itemGE_total
    (surviving_items sleep_start sleep_end optimal_times now)
  refine ⟨?_, ?_, ?_, ?_, ?_⟩
  · exact hpair.imp (by intro a b h; simpa [itemGE] using h)
  · exact List.mergeSort_perm _ _
  · intro a b hab hsub
    exact List.pair_sublist_mergeSort itemGE_trans itemGE_total
      (by simp [itemGE, hab]) hsub
  · intro a ha
    constructor
    · simp [optimize_schedule] at ha ⊢
      simp [ha]
    · intro b hb
      simp only [optimize_schedule] at ha hb
      rcases List.head?_eq_some_iff.mp ha with ⟨ys, hys⟩
      rw [hys] at hpair hb
      rcases List.mem_cons.mp hb with rfl | hmem
      · exact le_refl _
      · have := List.rel_of_pairwise_cons hpair hmem
        simpa [itemGE] using this
  · intro hall
    have hnil : surviving_items sleep_start sleep_end optimal_times now = [] := by
      unfold surviving_items
      rw [List.filterMap_eq_nil_iff]
      intro s hs
      simp [hall s hs]
    simp [optimize_schedule, hnil]

/-- Witness for `C6_ranking`: on the empty catalog the ranked list is empty
and `next_post_time` is absent. -/
theorem C6_ranking_witness :
    (optimize_schedule 0 6 [] 0).1 = [] ∧ (optimize_schedule 0 6 [] 0).2 = none :=
  (C6_ranking 0 6 [] 0).2.2.2.2 (by simp)

end Scheduler

namespace Scheduler

/-! ## C7: due-post sweep and the status lifecycle -/

/-- C7: the sweep maps `stepPost` over every entry; a non-pending entry is
never touched; while `now` is inside the sleep window every entry (in
particular a due pending one) is left unchanged, so it remains pending; a
due pending entry outside the sleep window transitions to `posted` or
`failed`; and every step preserves all fields except `status`, whose only
possible change is from `pending` to `posted` or `failed`.  The other
operation that touches the entry list, `schedule_post`, only appends, so
existing entries are never mutated by it. -/
theorem C7_status_lifecycle (sleep_start sleep_end now : Nat)
    (publish_ok : ScheduleEntry → Bool) (scheduled_posts : List ScheduleEntry) :
    process_scheduled_posts sleep_start sleep_end now publish_ok scheduled_posts =
      scheduled_posts.map (stepPost sleep_start sleep_end now publish_ok) ∧
    (∀ p : ScheduleEntry, p.status ≠ Status.pending →
      stepPost sleep_start sleep_end now publish_ok p = p) ∧
    (∀ p : ScheduleEntry, is_sleep_time sleep_start sleep_end now = true →
      stepPost sleep_start sleep_end now publish_ok p = p) ∧
    (∀ p : ScheduleEntry, p.status = Status.pending → p.scheduled_time ≤ now →
      is_sleep_time sleep_start sleep_end now = false →
      ((stepPost sleep_start sleep_end now publish_ok p).status = Status.posted ∨
       (stepPost sleep_start sleep_end now publish_ok p).status = Status.failed)) ∧
    (∀ p : ScheduleEntry,
      (stepPost sleep_start sleep_end now publish_ok p).id = p.id ∧
      (stepPost sleep_start sleep_end now publish_ok p).content_id = p.content_id ∧
      (stepPost sleep_start sleep_end now publish_ok p).platform = p.platform ∧
      (stepPost sleep_start sleep_end now publish_ok p).scheduled_time = p.scheduled_time ∧
      (stepPost sleep_start sleep_end now publish_ok p).created_at = p.created_at ∧
      ((stepPost sleep_start sleep_end now publish_ok p).status = p.status ∨
        (p.status = Status.pending ∧
          ((stepPost sleep_start sleep_end now publish_ok p).status = Status.posted ∨
           (stepPost sleep_start sleep_end now publish_ok p).status = Status.failed)))) ∧
    (∀ (ot : List OptimalTimeSlot) (cid pf : String) (pref : Option Nat) (t c : Nat),
      (schedule_post sleep_start sleep_end ot cid pf pref t c scheduled_posts).2 =
        scheduled_posts ++
          [(schedule_post sleep_start sleep_end ot cid pf pref t c scheduled_posts).1]) := by
  refine ⟨rfl, ?_, ?_, ?_, ?_, fun _ _ _ _ _ _ => rfl⟩
  · intro p hp
    simp [stepPost, hp]
  · intro p hsleep
    simp [stepPost, hsleep]
  · intro p h1 h2 h3
    simp only [stepPost, h1, h2, h3]
    simp
    by_cases hok : publish_ok p = true
    · simp [hok]
    · simp [hok]
  · intro p
    unfold stepPost
    split
    · split <;> simp_all
    · simp

/-- Witness for `C7_status_lifecycle`: a due pending entry swept at minute
360 (06:00, outside the sleep window) ends up posted or failed. -/
theorem C7_status_lifecycle_witness :
    (stepPost 0 6 360 (fun _ => true)
      ⟨"e", "c", "reddit", 0, Status.pending, 0⟩).status = Status.posted ∨
    (stepPost 0 6 360 (fun _ => true)
      ⟨"e", "c", "reddit", 0, Status.pending, 0⟩).status = Status.failed :=
  (C7_status_lifecycle 0 6 360 (fun _ => true) []).2.2.2.1
    ⟨"e", "c", "reddit", 0, Status.pending, 0⟩ rfl (by decide) (by decide)

end Scheduler

namespace Scheduler

/-! ## C8: upcoming-posts projection -/

/-- The ascending-time comparator is transitive. -/
theorem timeLE_trans : ∀ a b c : ScheduleEntry, timeLE a b → timeLE b c → timeLE a c := by
  intro a b c hab hbc
  simp only [timeLE, decide_eq_true_eq] at *
  omega

/-- The ascending-time comparator is total. -/
theorem timeLE_total : ∀ a b : ScheduleEntry, timeLE a b || timeLE b a := by
  intro a b
  simp only [timeLE, Bool.or_eq_true, decide_eq_true_eq]
  omega

/-- Every element of the sorted upcoming list is a pending entry of the
input list with a strictly future scheduled time. -/
theorem mem_upcoming_sorted {now : Nat} {scheduled_posts : List ScheduleEntry}
    {p : ScheduleEntry} (h : p ∈ upcoming_sorted now scheduled_posts) :
    p.status = Status.pending ∧ now < p.scheduled_time ∧ p ∈ scheduled_posts := by
  have hmem := (List.mergeSort_perm _ timeLE).mem_iff.mp h
  rcases List.mem_filter.mp hmem with ⟨hin, hcond⟩
  simp only [Bool.and_eq_true, decide_eq_true_eq, beq_iff_eq] at hcond
  exact ⟨hcond.2, hcond.1, hin⟩

/-- Every returned upcoming entry is a pending, strictly future entry of
the input list. -/
theorem mem_get_upcoming {now : Nat} {scheduled_posts : List ScheduleEntry}
    {p : ScheduleEntry} (h : p ∈ get_upcoming_posts now scheduled_posts) :
    p.status = Status.pending ∧ now < p.scheduled_time ∧ p ∈ scheduled_posts :=
  mem_upcoming_sorted (List.mem_of_mem_take h)

/-- The sorted upcoming list is ascending by scheduled time. -/
theorem upcoming_sorted_pairwise (now : Nat) (scheduled_posts : List ScheduleEntry) :
    (upcoming_sorted now scheduled_posts).Pairwise
      (fun a b => a.scheduled_time ≤ b.scheduled_time) := by
  have h := List.sorted_mergeSort timeLE_trans timeLE_total
    (scheduled_posts.filter
      (fun p => decide (now < p.scheduled_time) && (p.status == Status.pending)))
  exact h.imp (by intro a b hab; simpa [timeLE] using hab)

/-- C8: the projection returns at most 10 entries; each returned entry is
pending, strictly after `now`, and drawn from the entry list; the output is
sorted ascending by scheduled time; and every returned entry is at-or-before
every qualifying entry that the truncation dropped (the 10 soonest).  The
operation is a pure function of `now` and the entry list: it returns a
projection and no new state, so it mutates neither the entries nor the slot
catalog by construction. -/
theorem C8_upcoming_projection (now : Nat) (scheduled_posts : List ScheduleEntry) :
    (get_upcoming_posts now scheduled_posts).length ≤ 10 ∧
    (∀ p ∈ get_upcoming_posts now scheduled_posts,
      p.status = Status.pending ∧ now < p.scheduled_time ∧ p ∈ scheduled_posts) ∧
    (get_upcoming_posts now scheduled_posts).Pairwise
      (fun a b => a.scheduled_time ≤ b.scheduled_time) ∧
    (∀ p ∈ get_upcoming_posts now scheduled_posts,
      ∀ q ∈ (upcoming_sorted now scheduled_posts).drop 10,
        p.scheduled_time ≤ q.scheduled_time) := by
  refine ⟨?_, fun p hp => mem_get_upcoming hp, ?_, ?_⟩
  · simp [get_upcoming_posts]
  · exact (upcoming_sorted_pairwise now scheduled_posts).sublist
      (List.take_sublist 10 _)
  · intro p hp q hq
    have hfull := upcoming_sorted_pairwise now scheduled_posts
    rw [← List.take_append_drop 10 (upcoming_sorted now scheduled_posts)] at hfull
    exact (List.pairwise_append.mp hfull).2.2 p hp q hq

/-- Witness for `C8_upcoming_projection`: a single pending entry at minute
100 queried at minute 0 is returned, and is indeed pending and future. -/
theorem C8_upcoming_projection_witness :
    (⟨"a", "c", "reddit", 100, Status.pending, 0⟩ : ScheduleEntry).status = Status.pending ∧
    0 < (⟨"a", "c", "reddit", 100, Status.pending, 0⟩ : ScheduleEntry).scheduled_time ∧
    (⟨"a", "c", "reddit", 100, Status.pending, 0⟩ : ScheduleEntry) ∈
      [(⟨"a", "c", "reddit", 100, Status.pending, 0⟩ : ScheduleEntry)] :=
  (C8_upcoming_projection 0 [⟨"a", "c", "reddit", 100, Status.pending, 0⟩]).2.1
    ⟨"a", "c", "reddit", 100, Status.pending, 0⟩
    (by simp [get_upcoming_posts, upcoming_sorted])

end Scheduler

namespace Scheduler

/-! ## C9: fallback schedules exactly at now -/

/-- C9: scheduling without a preferred time for a platform with no catalog
slots, while `now` is outside the default sleep window, produces an entry
whose `scheduled_time` is exactly `now` — not strictly in the future — so
the entry is immediately due and is excluded from the upcoming-posts
projection taken at that same instant, since that projection keeps only
entries strictly after `now`. -/
theorem C9_immediate_due (optimal_times : List OptimalTimeSlot)
    (content_id platform : String) (now created : Nat)
    (scheduled_posts : List ScheduleEntry)
    (hplat : ∀ s ∈ optimal_times, s.platform ≠ platform)
    (hawake : is_sleep_time 0 6 now = false) :
    (schedule_post 0 6 optimal_times content_id platform none now created
      scheduled_posts).1.scheduled_time = now ∧
    (schedule_post 0 6 optimal_times content_id platform none now created
      scheduled_posts).1 ∉
      get_upcoming_posts now
        (schedule_post 0 6 optimal_times content_id platform none now created
          scheduled_posts).2 := by
  have hstep : next_non_sleep_aux 0 6 24 now = now := by
    show next_non_sleep_aux 0 6 (23 + 1) now = now
    simp [next_non_sleep_aux, hawake]
  have hfall : find_next_optimal_slot 0 6 optimal_times platform now = now := by
    rw [find_slot_fallback optimal_times platform now
      (fun s hs hp => absurd hp (hplat s hs))]
    unfold get_next_non_sleep_time
    exact hstep
  have h1 : (schedule_post 0 6 optimal_times content_id platform none now created
      scheduled_posts).1.scheduled_time = now := by
    simp [schedule_post, hfall]
  refine ⟨h1, fun hmem => ?_⟩
  have hlt := (mem_get_upcoming hmem).2.1
  rw [h1] at hlt
  exact lt_irrefl now hlt

/-- Witness for `C9_immediate_due`: an empty catalog at minute 360 (06:00)
yields an entry scheduled exactly at 360 that the projection omits. -/
theorem C9_immediate_due_witness :
    (schedule_post 0 6 [] "c1" "twitter" none 360 0 []).1.scheduled_time = 360 ∧
    (schedule_post 0 6 [] "c1" "twitter" none 360 0 []).1 ∉
      get_upcoming_posts 360 (schedule_post 0 6 [] "c1" "twitter" none 360 0 []).2 :=
  C9_immediate_due [] "c1" "twitter" 360 0 [] (by simp) (by decide)

end Scheduler

namespace Scheduler

/-! ## C10: frame property of engagement updates -/

/-- A successful first-match search decomposes the catalog: the result
replaces exactly the first matching slot's score and keeps everything else. -/
theorem blendFirstMatch_eq_some (platform : String) (day hr : Nat) (score : ℚ) :
    ∀ (l updated : List OptimalTimeSlot),
      blendFirstMatch platform day hr score l = some updated →
      ∃ pre s rest, l = pre ++ s :: rest ∧
        slotMatches platform day hr s = true ∧
        updated = pre ++ ⟨s.hour, s.minute, s.day_of_week,
          s.engagement_score * 0.8 + score * 0.2, s.platform⟩ :: rest := by
  intro l
  induction l with
  | nil =>
    intro u h
    simp [blendFirstMatch] at h
  | cons a t ih =>
    intro u h
    by_cases ha : slotMatches platform day hr a = true
    · simp [blendFirstMatch, ha] at h
      exact ⟨[], a, t, by simp, ha, h.symm⟩
    · have ha' : slotMatches platform day hr a = false := by
        cases hx : slotMatches platform day hr a
        · rfl
        · exact absurd hx ha
      simp [blendFirstMatch, ha'] at h
      rcases h with ⟨l', hl', rfl⟩
      rcases ih l' hl' with ⟨pre, s, rest, rfl, hs, rfl⟩
      exact ⟨a :: pre, s, rest, rfl, hs, rfl⟩

/-- C10: every engagement update either leaves the catalog unchanged,
rewrites the score of exactly one existing slot — keeping its hour, minute,
weekday and platform, and keeping every other slot and the order intact —
or appends exactly one new slot at the end; in all cases the catalog never
shrinks. -/
theorem C10_catalog_frame (optimal_times : List OptimalTimeSlot) (platform : String)
    (post_time : Nat) (engagement_score : ℚ) :
    (update_engagement_data optimal_times platform post_time engagement_score =
        optimal_times ∨
      (∃ pre s rest, optimal_times = pre ++ s :: rest ∧
        update_engagement_data optimal_times platform post_time engagement_score =
          pre ++ ⟨s.hour, s.minute, s.day_of_week,
            s.engagement_score * 0.8 + engagement_score * 0.2, s.platform⟩ :: rest) ∨
      update_engagement_data optimal_times platform post_time engagement_score =
        optimal_times ++
          [⟨hourOf post_time, 0, weekday post_time, engagement_score, platform⟩]) ∧
    optimal_times.length ≤
      (update_engagement_data optimal_times platform post_time engagement_score).length := by
  cases hb : blendFirstMatch platform (weekday post_time) (hourOf post_time)
      engagement_score optimal_times with
  | none =>
    constructor
    · by_cases hsc : engagement_score > 0.75
      · right; right
        simp [update_engagement_data, hb, hsc]
      · left
        simp [update_engagement_data, hb, hsc]
    · by_cases hsc : engagement_score > 0.75 <;> simp [update_engagement_data, hb, hsc]
  | some u =>
    rcases blendFirstMatch_eq_some _ _ _ _ _ u hb with ⟨pre, s, rest, hl, hs, hu⟩
    have hupd : update_engagement_data optimal_times platform post_time
        engagement_score = u := by
      simp [update_engagement_data, hb]
    constructor
    · right; left
      exact ⟨pre, s, rest, hl, by rw [hupd, hu]⟩
    · rw [hupd, hu, hl]
      simp

end Scheduler
